import Mathlib

/-!
Verification development for the csv-updater repository.

JavaScript strings are modelled as lists of characters (`Str`); JavaScript
objects whose keys matter are modelled as association lists or structures;
fallible table-level validation returns `Except`.  External platform
collaborators (the WHATWG URL constructor, `JSON.parse`/`JSON.stringify`,
`Date.parse`, `parseInt`/`parseFloat`) are modelled as parameters bundled in
an `ExtParsers` structure, with one concrete executable instance `extModel`
used to evaluate concrete scenarios.
-/

namespace CSVUpdater

/-- A JavaScript string, modelled as its list of characters. -/
abbrev Str := List Char

/-- Convert a Lean string literal to the `Str` model. -/
def str (s : String) : Str := s.data

/-- Whitespace recognised by the model of JavaScript `String.prototype.trim`
(the common ASCII whitespace characters). -/
def isJsSpace (c : Char) : Bool :=
  c = ' ' || c = '\t' || c = '\n' || c = '\r' || c = '\x0b' || c = '\x0c'

/-- Model of JavaScript `s.trim()`. -/
def trimStr (s : Str) : Str :=
  ((s.dropWhile isJsSpace).reverse.dropWhile isJsSpace).reverse

/-- Model of JavaScript `s.toLowerCase()` on the characters the repository
compares (ASCII case mapping). -/
def toLowerStr (s : Str) : Str := s.map Char.toLower

/-- JavaScript truthiness of a possibly-absent string property: `undefined`
and the empty string are falsy, every other string is truthy. -/
def truthy : Option Str → Bool
  | none => false
  | some s => !s.isEmpty

/-- JavaScript `a || b` on possibly-absent string properties: the first
truthy operand wins. -/
def jsOr (a b : Option Str) : Option Str :=
  if truthy a then a else b

/-- JavaScript `a || ""`-style defaulting: a falsy property becomes the
second argument. -/
def jsOrD (a : Option Str) (d : Str) : Str :=
  match a with
  | none => d
  | some s => if s.isEmpty then d else s

/-- Model of JavaScript `s.includes(pat)`: `pat` occurs as a contiguous
substring of `s`. -/
def containsSub (pat s : Str) : Bool :=
  match s with
  | [] => pat.isEmpty
  | _ :: cs => pat.isPrefixOf s || containsSub pat cs

/-- Fuel-indexed worker for `replaceAll`; the fuel is an upper bound on the
number of characters still to be consumed, so the recursion is structural. -/
def replaceAllAux (pat rep : Str) : Nat → Str → Str
  | 0, s => s
  | fuel + 1, s =>
    if pat ≠ [] ∧ pat.isPrefixOf s then
      rep ++ replaceAllAux pat rep fuel (s.drop pat.length)
    else
      match s with
      | [] => []
      | c :: cs => c :: replaceAllAux pat rep fuel cs

/-- Model of JavaScript `s.replace(/pat/g, rep)` for a literal pattern:
left-to-right, non-overlapping replacement of every occurrence.  (The
repository only uses non-empty literal patterns; on an empty pattern this
model returns the string unchanged.) -/
def replaceAll (pat rep s : Str) : Str :=
  replaceAllAux pat rep s.length s

/-- Split a character list at every occurrence of the separator character,
modelling JavaScript `s.split(sep)` for a one-character separator. -/
def splitOnChar (sep : Char) (s : Str) : List Str :=
  s.foldr (fun c acc =>
    match acc with
    | [] => [[c]]
    | h :: t => if c = sep then [] :: h :: t else (c :: h) :: t) [[]]

/-- Join a list of strings with a separator, modelling `xs.join(sep)`. -/
def joinSep (sep : Str) : List Str → Str
  | [] => []
  | [x] => x
  | x :: rest => x ++ sep ++ joinSep sep rest

/-- Decimal representation of a natural number as a `Str` (used for the
`Row ${index + 1}` prefixes of validation messages). -/
def natStr (n : Nat) : Str := (Nat.repr n).data

/-- External platform collaborators used by the row typing engine and the
value formatter, modelled as parameters: validity oracles for `Date.parse`,
`new URL` and `JSON.parse`, the composite `JSON.stringify(JSON.parse(s))`,
and the `parseInt`/`parseFloat` round-trips. -/
structure ExtParsers where
  dateParses : Str → Bool
  urlValid : Str → Bool
  jsonValid : Str → Bool
  jsonRoundtrip : Str → Str
  parseIntFmt : Str → Str
  parseFloatFmt : Str → Str

/-- A concrete executable instance of the external collaborators, used to
evaluate the concrete scenarios appearing in the claims.  `urlValid` models
the platform URL constructor on the inputs exercised here: it accepts
absolute `http(s)` URLs (the real constructor accepts these inputs too). -/
def extModel : ExtParsers where
  dateParses := fun _ => true
  urlValid := fun s => (str "http://").isPrefixOf s || (str "https://").isPrefixOf s
  jsonValid := fun _ => true
  jsonRoundtrip := fun s => s
  parseIntFmt := fun s => s
  parseFloatFmt := fun s => s

/-- The `RATE_LIMIT_CONFIG` record of `csvProcessor`. -/
structure RateLimitConfig where
  GRAPHQL_COST_LIMIT : Nat
  BATCH_SIZE : Nat
  INTER_BATCH_DELAY : Nat
  RETRY_DELAY : Nat
  MAX_RETRIES : Nat
  SMALL_DATASET : Nat
  MEDIUM_DATASET : Nat
  LARGE_DATASET : Nat

/-- The configuration constants of `csvProcessor` (`RATE_LIMIT_CONFIG`). -/
def RATE_LIMIT_CONFIG : RateLimitConfig where
  GRAPHQL_COST_LIMIT := 1000
  BATCH_SIZE := 5
  INTER_BATCH_DELAY := 50
  RETRY_DELAY := 1000
  MAX_RETRIES := 3
  SMALL_DATASET := 10
  MEDIUM_DATASET := 50
  LARGE_DATASET := 100

/-- `getOptimalBatchSize` from `csvProcessor`: the adaptive batch size as a
step function of the total item count. -/
def getOptimalBatchSize (totalItems : Nat) : Nat :=
  if totalItems < RATE_LIMIT_CONFIG.SMALL_DATASET then 3
  else if totalItems < RATE_LIMIT_CONFIG.MEDIUM_DATASET then 2
  else if totalItems < RATE_LIMIT_CONFIG.LARGE_DATASET then 2
  else 1

/-- `calculateDelay` from `csvProcessor`: the inter-batch delay, currently a
fixed configured duration independent of batch index and size. -/
def calculateDelay (_batchIndex _totalBatches _batchSize : Nat) : Nat :=
  RATE_LIMIT_CONFIG.INTER_BATCH_DELAY

/-- Fuel-indexed worker for `createBatches`; the fuel is an upper bound on
the number of items still to be sliced. -/
def createBatchesAux (batchSize : Nat) : Nat → List α → List (List α)
  | 0, _ => []
  | _, [] => []
  | fuel + 1, items =>
    items.take batchSize :: createBatchesAux batchSize fuel (items.drop batchSize)

/-- `createBatches` from `csvProcessor`: slice the item list into consecutive
runs of `batchSize`.  The source loop advances by `batchSize` each step and
does not terminate for a zero batch size, so the model returns `[]` there;
every use in the repository passes a positive size. -/
def createBatches (items : List α) (batchSize : Nat) : List (List α) :=
  if batchSize = 0 then [] else createBatchesAux batchSize items.length items

/-- The regular expression `^-?\d+$` used for `number_integer` values: an
optional leading minus, then one or more digits. -/
def intRegexTest (v : Str) : Bool :=
  match v with
  | [] => false
  | c :: rest =>
    if c = '-' then !rest.isEmpty && rest.all Char.isDigit
    else !(c :: rest).isEmpty && (c :: rest).all Char.isDigit

/-- Body of the regular expression `^-?\d*\.?\d+$` after the optional sign:
zero or more digits, an optional dot, then one or more digits. -/
def decRegexBody (l : Str) : Bool :=
  match (l.span Char.isDigit).2 with
  | [] => !l.isEmpty
  | '.' :: rest => !rest.isEmpty && rest.all Char.isDigit
  | _ => false

/-- The regular expression `^-?\d*\.?\d+$` used for `number_decimal`
values: an optional leading minus, then `decRegexBody`. -/
def decRegexTest (v : Str) : Bool :=
  match v with
  | [] => false
  | c :: rest => if c = '-' then decRegexBody rest else decRegexBody (c :: rest)

/-- The regular expression `^#([A-Fa-f0-9]{6}|[A-Fa-f0-9]{3})$` used for
`color` values. -/
def colorRegexTest (v : Str) : Bool :=
  match v with
  | '#' :: rest =>
    (rest.length = 6 || rest.length = 3) && rest.all (fun c => c.isDigit ||
      ('a' ≤ c && c ≤ 'f') || ('A' ≤ c && c ≤ 'F'))
  | _ => false

/-- `validateMetafieldValue` from `csvProcessor`: type-directed validation of
a metafield value string.  The `date`, `date_time`, `url` and `json` cases
delegate to the external platform parsers. -/
def validateMetafieldValue (ext : ExtParsers) (value ty : Str) : Bool :=
  if ty = str "number_integer" then intRegexTest value
  else if ty = str "number_decimal" then decRegexTest value
  else if ty = str "boolean" then
    [str "true", str "false", str "1", str "0"].contains (toLowerStr value)
  else if ty = str "date" then ext.dateParses value
  else if ty = str "date_time" then ext.dateParses value
  else if ty = str "color" then colorRegexTest value
  else if ty = str "url" then ext.urlValid value
  else if ty = str "json" then ext.jsonValid value
  else true

/-- `fixEncodingIssues` from `csvProcessor`: the fixed sequence of mojibake
repairs, applied one pattern at a time over the whole string. -/
def fixEncodingIssues (text : Str) : Str :=
  if text.isEmpty then text
  else
    replaceAll (str "â€\x22") (str "—")
      (replaceAll (str "â€\x22") (str "–")
        (replaceAll (str "â€") (str "\x22")
          (replaceAll (str "â€œ") (str "\x22")
            (replaceAll (str "â€™") (str "\x27")
              (replaceAll (str "Â") []
                (replaceAll (str "�g") (str "μg")
                  (replaceAll (str "?g") (str "μg") text)))))))

/-- `formatMetafieldValue` from `csvProcessor`: type-directed formatting of a
metafield value string, after the encoding repair.  The `json` and numeric
cases delegate to the external platform functions. -/
def formatMetafieldValue (ext : ExtParsers) (value ty : Str) : Str :=
  let cleanValue := fixEncodingIssues value
  if ty = str "boolean" then
    if [str "true", str "1"].contains (toLowerStr cleanValue) then str "true"
    else str "false"
  else if ty = str "json" then ext.jsonRoundtrip cleanValue
  else if ty = str "number_integer" then ext.parseIntFmt cleanValue
  else if ty = str "number_decimal" then ext.parseFloatFmt cleanValue
  else if ty = str "url" then
    if !((str "http://").isPrefixOf cleanValue) &&
       !((str "https://").isPrefixOf cleanValue) then
      str "https://" ++ cleanValue
    else cleanValue
  else cleanValue

/-- A parsed CSV row, modelled as a JavaScript object: an association list
from column-name keys to string values, in column order. -/
abbrev Row := List (Str × Str)

/-- Model of JavaScript property access `row[k]`: `none` when the key is
absent (`undefined`). -/
def getK (r : Row) (k : String) : Option Str :=
  match r.find? (fun p => p.1 == str k) with
  | some p => some p.2
  | none => none

/-- `detectCSVFormat` from `csvProcessor`: lower-case the headers of the
first row, classify as `products` when some header contains `handle` and
some contains `title` as substrings, else as `metafields` when the four
canonical lowercase header names are all present, else `unknown`. -/
def detectCSVFormat (data : List Row) : Str :=
  match data with
  | [] => str "unknown"
  | r :: _ =>
    let headers := r.map (fun p => toLowerStr p.1)
    let hasProductHeaders :=
      [str "handle", str "title"].all (fun h => headers.any (fun hd => containsSub h hd))
    let hasMetafieldHeaders :=
      [str "handle", str "namespace", str "key", str "value"].all
        (fun h => headers.contains h)
    if hasProductHeaders then str "products"
    else if hasMetafieldHeaders then str "metafields"
    else str "unknown"

/-- The regular expression `^[a-z0-9_.\-()&]+$` used for entity handles. -/
def handleRegexTest (v : Str) : Bool :=
  !v.isEmpty && v.all (fun c =>
    ('a' ≤ c && c ≤ 'z') || c.isDigit || c = '_' || c = '.' || c = '-' ||
    c = '(' || c = ')' || c = '&')

/-- The regular expression `^[a-zA-Z0-9_-]+$` used for namespaces and keys. -/
def nsKeyRegexTest (v : Str) : Bool :=
  !v.isEmpty && v.all (fun c =>
    ('a' ≤ c && c ≤ 'z') || ('A' ≤ c && c ≤ 'Z') || c.isDigit || c = '_' || c = '-')

/-- The regular expression `^\d+$` used for the expiration-months field. -/
def digitsRegexTest (v : Str) : Bool :=
  !v.isEmpty && v.all Char.isDigit

/-- The fixed metafield type enumeration of `validateMetafieldCSVData`. -/
def validTypes : List Str :=
  [str "single_line_text_field", str "multi_line_text_field",
   str "number_integer", str "number_decimal", str "date", str "date_time",
   str "boolean", str "color", str "weight", str "volume", str "dimension",
   str "rating", str "json", str "money", str "file_reference",
   str "page_reference", str "product_reference", str "variant_reference",
   str "collection_reference", str "url"]

/-- JavaScript emptiness test `!row[field] || row[field].trim() === ''`. -/
def blankField (o : Option Str) : Bool :=
  match o with
  | none => true
  | some s => s.isEmpty || (trimStr s).isEmpty

/-- The declared type of a metafield row:
`row.type ? row.type.trim() : 'single_line_text_field'`. -/
def metaRowType (r : Row) : Str :=
  if truthy (getK r "type") then trimStr ((getK r "type").getD [])
  else str "single_line_text_field"

/-- The list of error messages `validateMetafieldCSVData` pushes for one row
(0-based `index`), in push order: missing required fields, handle format,
metafield type, namespace format, key format. -/
def metaRowErrors (index : Nat) (r : Row) : List Str :=
  let rowPrefix := str "Row " ++ natStr (index + 1) ++ str ": "
  ((["handle", "namespace", "key", "value"].filter
      (fun f => blankField (getK r f))).map
      (fun f => rowPrefix ++ str "Missing required field \x27" ++ str f ++ str "\x27")) ++
  (if truthy (getK r "handle") &&
      !handleRegexTest (trimStr ((getK r "handle").getD [])) then
    [rowPrefix ++ str "Invalid handle format. Handle contains unsupported characters."]
   else []) ++
  (if !validTypes.contains (metaRowType r) then
    [rowPrefix ++ str "Invalid metafield type \x27" ++ metaRowType r ++
     str "\x27. Valid types: " ++ joinSep (str ", ") validTypes]
   else []) ++
  (if truthy (getK r "namespace") &&
      !nsKeyRegexTest (trimStr ((getK r "namespace").getD [])) then
    [rowPrefix ++ str "Invalid namespace format. Use letters, numbers, underscores, and hyphens only."]
   else []) ++
  (if truthy (getK r "key") &&
      !nsKeyRegexTest (trimStr ((getK r "key").getD [])) then
    [rowPrefix ++ str "Invalid key format. Use letters, numbers, underscores, and hyphens only."]
   else [])

/-- A validated FieldUpdates-variant record, as pushed by
`validateMetafieldCSVData`. -/
structure MetafieldRecord where
  handle : Str
  nameSpace : Str
  key : Str
  value : Str
  type : Str
deriving DecidableEq

/-- The validated record `validateMetafieldCSVData` builds from an
error-free row. -/
def mkMetafieldRecord (r : Row) : MetafieldRecord where
  handle := trimStr ((getK r "handle").getD [])
  nameSpace := trimStr ((getK r "namespace").getD [])
  key := trimStr ((getK r "key").getD [])
  value := fixEncodingIssues (trimStr ((getK r "value").getD []))
  type := metaRowType r

/-- The accumulating `forEach` of `validateMetafieldCSVData`: the pair of
the full error list and the validated rows, starting at row index `i`. -/
def validateMetafieldAux (i : Nat) : List Row → List Str × List MetafieldRecord
  | [] => ([], [])
  | r :: rs =>
    let es := metaRowErrors i r
    let rest := validateMetafieldAux (i + 1) rs
    (es ++ rest.1, if es.isEmpty then mkMetafieldRecord r :: rest.2 else rest.2)

/-- `validateMetafieldCSVData` from `csvProcessor`: validate every row,
then either throw the accumulated error list or return all validated rows. -/
def validateMetafieldCSVData (data : List Row) :
    Except (List Str) (List MetafieldRecord) :=
  let acc := validateMetafieldAux 0 data
  if acc.1.isEmpty then .ok acc.2 else .error acc.1

/-- The list of error messages `validateProductCSVData` pushes for one row
(0-based `index`), in push order: missing handle, handle format, published
flag, expiration months. -/
def prodRowErrors (index : Nat) (r : Row) : List Str :=
  let rowPrefix := str "Row " ++ natStr (index + 1) ++ str ": "
  let handle := jsOr (getK r "Handle") (getK r "handle")
  let expirationMonths :=
    jsOr (getK r "expiration months (product.metafields.custom.expiration_months)")
      (jsOr (getK r "expirationMonths") (getK r "expiration months"))
  (if !truthy (getK r "Handle") && !truthy (getK r "handle") then
    [rowPrefix ++ str "Missing required field \x27Handle\x27"]
   else []) ++
  (if truthy handle && !handleRegexTest (trimStr (handle.getD [])) then
    [rowPrefix ++ str "Invalid handle format. Handle contains unsupported characters."]
   else []) ++
  (if truthy (getK r "Published") &&
      !([str "true", str "false", str "1", str "0", str "TRUE", str "FALSE"].contains
          (toLowerStr ((getK r "Published").getD []))) then
    [rowPrefix ++ str "Published field must be true/false or 1/0"]
   else []) ++
  (if truthy expirationMonths &&
      !digitsRegexTest (trimStr (expirationMonths.getD [])) then
    [rowPrefix ++ str "Expiration months must be a positive integer"]
   else [])

/-- A validated EntityProperties-variant record, as pushed by
`validateProductCSVData`. -/
structure ProductRecord where
  handle : Str
  title : Str
  bodyHtml : Str
  vendor : Str
  productType : Str
  tags : Str
  published : Option Bool
  components : Str
  shippingInfo : Str
  unitPacks : Str
  coa : Str
  sds : Str
  storageConditions : Str
  volume : Str
  matrix : Str
  casNumber : Str
  catalogNumber : Str
  dotHazardous : Str
  expirationMonths : Str
deriving DecidableEq

/-- Alias-chain access with encoding repair, modelling
`fixEncodingIssues(row[k1] || row[k2] || ... || '')`. -/
def aliasGet (r : Row) (ks : List String) : Str :=
  fixEncodingIssues (jsOrD (ks.foldr (fun k acc => jsOr (getK r k) acc) none) [])

/-- The validated record `validateProductCSVData` builds from an error-free
row, applying the header-alias table and the encoding repair. -/
def mkProductRecord (r : Row) : ProductRecord where
  handle :=
    let handle := jsOr (getK r "Handle") (getK r "handle")
    if truthy handle then trimStr (handle.getD []) else []
  title := aliasGet r ["Title"]
  bodyHtml := aliasGet r ["Body (HTML)", "bodyHtml"]
  vendor := aliasGet r ["Vendor"]
  productType := aliasGet r ["Type"]
  tags := aliasGet r ["Tags"]
  published :=
    if truthy (getK r "Published") then
      some ([str "true", str "1", str "TRUE"].contains ((getK r "Published").getD []))
    else none
  components := aliasGet r ["Components (product.metafields.custom.components)", "components"]
  shippingInfo := aliasGet r
    ["Shipping Info (product.metafields.custom.shipping_info)", "shippingInfo", "Shipping Info"]
  unitPacks := aliasGet r
    ["Unit/Packs (product.metafields.custom.unit_packs)", "unitPacks", "Unit/Packs"]
  coa := aliasGet r ["COA (product.metafields.custom.coa)", "coa", "COA"]
  sds := aliasGet r ["SDS (product.metafields.custom.sds)", "sds", "SDS"]
  storageConditions := aliasGet r
    ["Storage Conditions (product.metafields.custom.storage_conditions)",
     "storageConditions", "Storage Conditions"]
  volume := aliasGet r ["Volume (product.metafields.custom.volume)", "volume", "Volume"]
  matrix := aliasGet r ["Matrix (product.metafields.custom.matrix)", "matrix", "Matrix"]
  casNumber := aliasGet r
    ["CAS Number (product.metafields.custom.cas_number)", "casNumber", "CAS Number", "cas_number"]
  catalogNumber := aliasGet r
    ["Catalog Number (product.metafields.custom.catalog_number)", "catalogNumber",
     "Catalog Number", "catalog_number"]
  dotHazardous := aliasGet r
    ["DOT Hazardous (product.metafields.custom.dot_hazardous)", "dotHazardous",
     "DOT Hazardous", "dot_hazardous"]
  expirationMonths :=
    jsOrD (jsOr (getK r "expiration months (product.metafields.custom.expiration_months)")
      (jsOr (getK r "expirationMonths") (getK r "expiration months"))) []

/-- The accumulating `forEach` of `validateProductCSVData`. -/
def validateProductAux (i : Nat) : List Row → List Str × List ProductRecord
  | [] => ([], [])
  | r :: rs =>
    let es := prodRowErrors i r
    let rest := validateProductAux (i + 1) rs
    (es ++ rest.1, if es.isEmpty then mkProductRecord r :: rest.2 else rest.2)

/-- `validateProductCSVData` from `csvProcessor`: validate every row, then
either throw the accumulated error list or return all validated rows. -/
def validateProductCSVData (data : List Row) :
    Except (List Str) (List ProductRecord) :=
  let acc := validateProductAux 0 data
  if acc.1.isEmpty then .ok acc.2 else .error acc.1

/-- One field update of an UpdateGroup (the object pushed by
`groupMetafieldsByHandle`). -/
structure FieldUpdate where
  nameSpace : Str
  key : Str
  value : Str
  type : Str
deriving DecidableEq

/-- Append a field update under a handle, modelling JavaScript object
update `grouped[handle].push(...)` with string-key insertion order. -/
def pushHandle (g : List (Str × List FieldUpdate)) (h : Str) (fu : FieldUpdate) :
    List (Str × List FieldUpdate) :=
  match g with
  | [] => [(h, [fu])]
  | (k, l) :: t => if k = h then (k, l ++ [fu]) :: t else (k, l) :: pushHandle t h fu

/-- `groupMetafieldsByHandle` from `csvProcessor`: fold the record list into
one ordered field-update list per handle, in first-seen handle order. -/
def groupMetafieldsByHandle (metafields : List MetafieldRecord) :
    List (Str × List FieldUpdate) :=
  metafields.foldl
    (fun g m => pushHandle g m.handle ⟨m.nameSpace, m.key, m.value, m.type⟩) []

/-- Overwrite-or-insert under a handle, modelling JavaScript object
assignment `grouped[product.handle] = product`. -/
def setHandle (g : List (Str × ProductRecord)) (h : Str) (p : ProductRecord) :
    List (Str × ProductRecord) :=
  match g with
  | [] => [(h, p)]
  | (k, v) :: t => if k = h then (k, p) :: t else (k, v) :: setHandle t h p

/-- `groupProductsByHandle` from `csvProcessor`: last-write-wins grouping of
product records by handle. -/
def groupProductsByHandle (products : List ProductRecord) :
    List (Str × ProductRecord) :=
  products.foldl (fun g p => setHandle g p.handle p) []

/-- `maxPreviewRows` from `parseCSV`. -/
def maxPreviewRows : Nat := 25

/-- The preview-mode truncation of `parseCSV`: with the preview option set
and more than `maxPreviewRows` data lines after the header line, keep only
the header line and the first `maxPreviewRows` data lines of the cleaned
text. -/
def previewLimit (isPreview : Bool) (lines : List String) : List String :=
  if isPreview && decide (lines.length > maxPreviewRows + 1) then
    lines.take (maxPreviewRows + 1)
  else lines

/-- The preview option the submission entry point (`action` in
`api.process-csv`) passes to `parseCSV`: exactly the dry-run flag. -/
def actionPreviewFlag (dryRun : Bool) : Bool := dryRun

/-- The remote entity returned by the lookup query (`productByHandle`):
identifier, display title and tag list. -/
structure Product where
  id : Str
  title : Str
  tags : List Str
deriving DecidableEq

/-- One element of the `metafields` variable of the `metafieldsSet`
mutation, as assembled by `processMetafields`. -/
structure FieldSet where
  ownerId : Str
  nameSpace : Str
  key : Str
  value : Str
  type : Str
deriving DecidableEq

/-- A JavaScript object value appearing in a result entry: string, number
or boolean. -/
inductive EVal where
  | s (v : Str)
  | n (v : Nat)
  | b (v : Bool)
deriving DecidableEq

/-- A success entry of the result object, modelled as the association list
of the JavaScript object literal, preserving its key names. -/
abbrev Entry := List (String × EVal)

/-- Model of property lookup on a result entry. -/
def lookupEntry (e : Entry) (k : String) : Option EVal :=
  match e.find? (fun p => p.1 == k) with
  | some p => some p.2
  | none => none

/-- An error entry of the result object: handle plus message. -/
structure ErrEntry where
  handle : Str
  error : Str
deriving DecidableEq

/-- A remote mutation call issued to the external update service. -/
inductive RemoteCall where
  | setMetafields (mfs : List FieldSet)
  | productUpdateTags (id : Str) (tags : List Str)
deriving DecidableEq

/-- The structured user-error lists the external service returns for the
two mutation calls; parameters of the embedding. -/
structure RemoteWorld where
  setMetafieldsUserErrors : List Str
  productUpdateUserErrors : List Str

/-- The per-handle outcome of `processMetafields`: result-object deltas and
the remote mutation calls issued. -/
structure PMOut where
  errors : List ErrEntry
  success : List Entry
  calls : List RemoteCall
deriving DecidableEq

/-- `processMetafields` from `api.process-csv`: validate and format each
field update, then either record validation errors, or (non-dry-run) issue
the `metafieldsSet` mutation followed by the best-effort import-tag add, or
(dry-run, or nothing valid to set) record a preview success entry.  The
remote user-error lists are parameters (`world`), and issued mutation calls
are returned in `calls`. -/
def processMetafields (ext : ExtParsers) (world : RemoteWorld) (product : Product)
    (metafieldsToSet : List FieldUpdate) (handle : Str) (dryRun : Bool) : PMOut :=
  let validationErrors :=
    (metafieldsToSet.filter (fun m => !validateMetafieldValue ext m.value m.type)).map
      (fun m => str "Invalid value \x27" ++ m.value ++ str "\x27 for type \x27" ++
        m.type ++ str "\x27")
  let validMetafields :=
    (metafieldsToSet.filter (fun m => validateMetafieldValue ext m.value m.type)).map
      (fun m => ({ ownerId := product.id, nameSpace := m.nameSpace, key := m.key
                 , value := formatMetafieldValue ext m.value m.type
                 , type := m.type } : FieldSet))
  if !validationErrors.isEmpty then
    { errors := [⟨handle, str "Validation errors: " ++ joinSep (str ", ") validationErrors⟩]
    , success := [], calls := [] }
  else if !dryRun && !validMetafields.isEmpty then
    if !world.setMetafieldsUserErrors.isEmpty then
      { errors := [⟨handle, str "Metafield update errors: " ++
          joinSep (str ", ") world.setMetafieldsUserErrors⟩]
      , success := [], calls := [.setMetafields validMetafields] }
    else
      let csvImportTag := str "product_csv_import"
      let tagCalls :=
        if !product.tags.contains csvImportTag then
          [RemoteCall.productUpdateTags product.id (product.tags ++ [csvImportTag])]
        else []
      { errors := []
      , success := [[("handle", .s handle), ("metafieldsUpdated", .n validMetafields.length),
          ("productTitle", .s product.title)]]
      , calls := .setMetafields validMetafields :: tagCalls }
  else
    { errors := []
    , success := [[("handle", .s handle), ("metafieldsToUpdate", .n validMetafields.length),
        ("productTitle", .s product.title), ("dryRun", .b true)]]
    , calls := [] }

/-- A `ProductInput` payload for the `productUpdate` mutation, as assembled
by the two property-update paths.  Optional fields are `none` when the
source leaves the key unset. -/
structure UpdateInput where
  id : Str
  title : Option Str
  descriptionHtml : Option Str
  vendor : Option Str
  productType : Option Str
  status : Option Str
  tags : List Str
  metafields : Option (List FieldUpdate)
deriving DecidableEq

/-- JSON string-character escaping used by the model of `JSON.stringify`
(the inputs exercised here contain no control characters). -/
def jsonEscapeChar (c : Char) : Str :=
  if c = '\x22' then ['\\', '\x22']
  else if c = '\\' then ['\\', '\\']
  else [c]

/-- Model of the platform `JSON.stringify` on an array of strings. -/
def jsStringifyStrArr (xs : List Str) : Str :=
  ['['] ++ joinSep (str ",")
    (xs.map (fun x => ['\x22'] ++ (x.map jsonEscapeChar).flatten ++ ['\x22'])) ++ [']']

/-- The components-value parsing shared verbatim by both property-update
paths: semicolon-separated values become a JSON string array; otherwise the
value is kept when it parses as JSON and wrapped in a one-element array
when it does not. -/
def componentsValue (ext : ExtParsers) (components : Str) : Str :=
  if components.contains ';' then
    jsStringifyStrArr (((splitOnChar ';' components).map trimStr).filter
      (fun c => !c.isEmpty))
  else if ext.jsonValid components then components
  else jsStringifyStrArr [trimStr components]

/-- The tag merge shared verbatim by both property-update paths: existing
product tags, then CSV tags not already present, then the import marker tag
if absent. -/
def mergeTags (productTags : List Str) (csvTags : Str) : List Str :=
  let base := productTags
  let withCsv :=
    if !csvTags.isEmpty then
      (((splitOnChar ',' csvTags).map trimStr).filter (fun t => !t.isEmpty)).foldl
        (fun acc t => if acc.contains t then acc else acc ++ [t]) base
    else base
  if withCsv.contains (str "product_csv_import") then withCsv
  else withCsv ++ [str "product_csv_import"]

/-- The metafield list shared verbatim by both property-update paths, in
push order; each optional attribute contributes one entry when truthy. -/
def productMetafieldsList (ext : ExtParsers) (productData : ProductRecord) :
    List FieldUpdate :=
  (if !productData.components.isEmpty then
    [⟨str "custom", str "components", componentsValue ext productData.components, str "json"⟩]
   else []) ++
  (if !productData.shippingInfo.isEmpty then
    [⟨str "custom", str "shipping_info", productData.shippingInfo, str "single_line_text_field"⟩]
   else []) ++
  (if !productData.unitPacks.isEmpty then
    [⟨str "custom", str "unit_packs", productData.unitPacks, str "single_line_text_field"⟩]
   else []) ++
  (if !productData.coa.isEmpty then
    [⟨str "custom", str "coa", productData.coa,
      if (str "http://").isPrefixOf productData.coa ||
         (str "https://").isPrefixOf productData.coa then str "url"
      else str "single_line_text_field"⟩]
   else []) ++
  (if !productData.sds.isEmpty then
    [⟨str "custom", str "sds", productData.sds,
      if (str "http://").isPrefixOf productData.sds ||
         (str "https://").isPrefixOf productData.sds then str "url"
      else str "single_line_text_field"⟩]
   else []) ++
  (if !productData.storageConditions.isEmpty then
    [⟨str "custom", str "storage_conditions", productData.storageConditions,
      str "single_line_text_field"⟩]
   else []) ++
  (if !productData.volume.isEmpty then
    [⟨str "custom", str "volume", productData.volume, str "single_line_text_field"⟩]
   else []) ++
  (if !productData.matrix.isEmpty then
    [⟨str "custom", str "matrix", productData.matrix, str "single_line_text_field"⟩]
   else []) ++
  (if !productData.casNumber.isEmpty then
    [⟨str "custom", str "cas_number", productData.casNumber, str "single_line_text_field"⟩]
   else []) ++
  (if !productData.catalogNumber.isEmpty then
    [⟨str "custom", str "catalog_number", productData.catalogNumber, str "single_line_text_field"⟩]
   else []) ++
  (if !productData.dotHazardous.isEmpty then
    [⟨str "custom", str "dot_hazardous", productData.dotHazardous, str "single_line_text_field"⟩]
   else []) ++
  (if !productData.expirationMonths.isEmpty then
    [⟨str "custom", str "expiration_months", productData.expirationMonths, str "number_integer"⟩]
   else [])

/-- The update input assembled by `processProductProperties` in
`api.process-csv` (the synchronous executor): every truthy scalar field is
copied from the validated record; in particular `descriptionHtml` is set
from the record's `bodyHtml` value. -/
def processProductPropertiesInput (ext : ExtParsers) (product : Product)
    (productData : ProductRecord) : UpdateInput where
  id := product.id
  title := if !productData.title.isEmpty then some productData.title else none
  descriptionHtml :=
    if !productData.bodyHtml.isEmpty then some productData.bodyHtml else none
  vendor := if !productData.vendor.isEmpty then some productData.vendor else none
  productType :=
    if !productData.productType.isEmpty then some productData.productType else none
  status :=
    match productData.published with
    | some b => some (if b then str "ACTIVE" else str "DRAFT")
    | none => none
  tags := mergeTags product.tags productData.tags
  metafields :=
    let mfs := productMetafieldsList ext productData
    if !mfs.isEmpty then some mfs else none

/-- The update input assembled by `processProductProperties` in
`csvBackgroundProcessor` (the background executor): identical to the
synchronous path except that, when `bodyHtml` is truthy, `descriptionHtml`
is assigned from the record's `title` value
(`updateInput.descriptionHtml = productData.title` in the source). -/
def backgroundProductPropertiesInput (ext : ExtParsers) (product : Product)
    (productData : ProductRecord) : UpdateInput where
  id := product.id
  title := if !productData.title.isEmpty then some productData.title else none
  descriptionHtml :=
    if !productData.bodyHtml.isEmpty then some productData.title else none
  vendor := if !productData.vendor.isEmpty then some productData.vendor else none
  productType :=
    if !productData.productType.isEmpty then some productData.productType else none
  status :=
    match productData.published with
    | some b => some (if b then str "ACTIVE" else str "DRAFT")
    | none => none
  tags := mergeTags product.tags productData.tags
  metafields :=
    let mfs := productMetafieldsList ext productData
    if !mfs.isEmpty then some mfs else none

/-- The rate-limit message test of the per-handle catch handler in
`action`: `error.message.includes('429') || error.message.includes('rate limit')`. -/
def isRateLimitError (msg : Str) : Bool :=
  containsSub (str "429") msg || containsSub (str "rate limit") msg

/-- The observable trace of one per-handle operation in `action`:
how many times the repository code invoked the remote operation, which
waits it performed, and which error entries it recorded. -/
structure HandleTrace where
  attemptsUsed : Nat
  delaysMs : List Nat
  errors : List ErrEntry
deriving DecidableEq

/-- The per-handle try/catch of `action` in `api.process-csv`, driven by an
oracle giving the outcome of each invocation of the remote operation.  The
body invokes the operation once (forwarding `tries` to the external client
as an option); the catch block waits `RETRY_DELAY` when the message
indicates a rate limit and then pushes the error entry — no branch invokes
the operation again, so only `attemptOutcomes 0` is ever consumed. -/
def processHandleAttempt (attemptOutcomes : Nat → Except Str Unit)
    (handle : Str) : HandleTrace :=
  match attemptOutcomes 0 with
  | .ok _ => { attemptsUsed := 1, delaysMs := [], errors := [] }
  | .error msg =>
    { attemptsUsed := 1
    , delaysMs := if isRateLimitError msg then [RATE_LIMIT_CONFIG.RETRY_DELAY] else []
    , errors := [⟨handle, str "Processing error: " ++ msg⟩] }

end CSVUpdater

deriving instance DecidableEq for Except

namespace CSVUpdater

/-! Concrete scenario inputs used by the claim theorems. -/

/-- The single data row of end-to-end scenario A
(`red-board,custom,color,red,single_line_text_field`). -/
def c1Row : Row := [(str "handle", str "red-board"), (str "namespace", str "custom"),
  (str "key", str "color"), (str "value", str "red"), (str "type", str "single_line_text_field")]

/-- The validated record produced from `c1Row`. -/
def c1Record : MetafieldRecord where
  handle := str "red-board"
  nameSpace := str "custom"
  key := str "color"
  value := str "red"
  type := str "single_line_text_field"

/-- The field update grouped under handle `red-board` from `c1Record`. -/
def c1FieldUpdate : FieldUpdate where
  nameSpace := str "custom"
  key := str "color"
  value := str "red"
  type := str "single_line_text_field"

/-- A remote entity for scenario A's handle. -/
def c1Product : Product where
  id := str "gid"
  title := str "Red Board"
  tags := []

/-- Remote user-error lists for scenario A (both empty; the dry-run path
never consults them). -/
def c1World : RemoteWorld where
  setMetafieldsUserErrors := []
  productUpdateUserErrors := []

/-- A header row carrying the four canonical FieldUpdates headers only in a
different letter case. -/
def c2Row : Row := [(str "Handle", str "red-board"), (str "Namespace", str "custom"),
  (str "Key", str "color"), (str "Value", str "red")]

/-- A failure message carrying the HTTP 429 rate-limit signal. -/
def c3Msg : Str := str "Throttled: 429 Too Many Requests"

/-- An operation oracle whose every invocation fails with the rate-limit
message. -/
def c3Outcomes : Nat → Except Str Unit := fun _ => .error c3Msg

/-- A fully valid FieldUpdates row used to exercise the all-accepting side
of table-level validation. -/
def c4MetaRow : Row := [(str "handle", str "blue-board"), (str "namespace", str "custom"),
  (str "key", str "size"), (str "value", str "10"), (str "type", str "number_integer")]

/-- The validated record produced from `c4MetaRow`. -/
def c4MetaRec : MetafieldRecord where
  handle := str "blue-board"
  nameSpace := str "custom"
  key := str "size"
  value := str "10"
  type := str "number_integer"

/-- An EntityProperties row whose handle fails the pattern check. -/
def c4ProdRow : Row := [(str "Handle", str "UPPER CASE!")]

/-- A remote entity for the property-update divergence scenario. -/
def c5Product : Product where
  id := str "gid9"
  title := str "Existing"
  tags := []

/-- A validated EntityProperties record whose title (`T`) and body (`B`)
differ, exposing the description-source divergence. -/
def c5Data : ProductRecord where
  handle := str "p"
  title := str "T"
  bodyHtml := str "B"
  vendor := []
  productType := []
  tags := []
  published := none
  components := []
  shippingInfo := []
  unitPacks := []
  coa := []
  sds := []
  storageConditions := []
  volume := []
  matrix := []
  casNumber := []
  catalogNumber := []
  dotHazardous := []
  expirationMonths := []

/-- Twenty-six data lines, one more than the preview limit. -/
def c6Rows : List String := (List.range 26).map toString

/-- The same first 25 data lines as `c6Rows` with a different tail. -/
def c6Rows2 : List String := c6Rows ++ ["extra"]

/-- A value accepted by the URL validator whose encoding repair is not
idempotent: it contains `?` followed by the stray `Â` character, so one
repair pass yields `?g` and a second pass rewrites that to `μg`. -/
def c10Url : Str := str "http://x.com/?Âg"

/-! Helper lemmas shared by the claim proofs. -/

/-- A list's `isEmpty` is `false` exactly when it is not nil. -/
theorem isEmpty_false_iff {α : Type} (l : List α) : l.isEmpty = false ↔ l ≠ [] := by
  cases l <;> simp

/-- `intRegexTest` on a string starting with the minus sign. -/
theorem intRegexTest_cons_minus (rest : Str) :
    intRegexTest ('-' :: rest) = (!rest.isEmpty && rest.all Char.isDigit) := rfl

/-- `intRegexTest` on a string starting with any other character. -/
theorem intRegexTest_cons_ne (c : Char) (rest : Str) (hc : c ≠ '-') :
    intRegexTest (c :: rest) =
      (!(c :: rest).isEmpty && (c :: rest).all Char.isDigit) := by
  simp only [intRegexTest]
  rw [if_neg hc]

/-- A list is a Boolean prefix of itself followed by anything. -/
theorem isPrefixOf_append (l t : Str) : l.isPrefixOf (l ++ t) = true := by
  induction l with
  | nil => simp [List.isPrefixOf]
  | cons c cs ih => simp [List.isPrefixOf, ih]

/-- Unfolding of the boolean branch of `formatMetafieldValue`. -/
theorem formatMetafieldValue_boolean (ext : ExtParsers) (v : Str) :
    formatMetafieldValue ext v (str "boolean") =
      if [str "true", str "1"].contains (toLowerStr (fixEncodingIssues v)) then str "true"
      else str "false" := rfl

/-- Unfolding of the url branch of `formatMetafieldValue`. -/
theorem formatMetafieldValue_url (ext : ExtParsers) (v : Str) :
    formatMetafieldValue ext v (str "url") =
      if !((str "http://").isPrefixOf (fixEncodingIssues v)) &&
         !((str "https://").isPrefixOf (fixEncodingIssues v)) then
        str "https://" ++ fixEncodingIssues v
      else fixEncodingIssues v := rfl

/-- Unfolding of the json branch of `formatMetafieldValue`. -/
theorem formatMetafieldValue_json (ext : ExtParsers) (v : Str) :
    formatMetafieldValue ext v (str "json") = ext.jsonRoundtrip (fixEncodingIssues v) := rfl

/-- A formatted url value always starts with an explicit http or https
scheme. -/
theorem formatMetafieldValue_url_scheme (ext : ExtParsers) (v : Str) :
    ((str "http://").isPrefixOf (formatMetafieldValue ext v (str "url")) ||
     (str "https://").isPrefixOf (formatMetafieldValue ext v (str "url"))) = true := by
  rw [formatMetafieldValue_url]
  by_cases hc : (!((str "http://").isPrefixOf (fixEncodingIssues v)) &&
      !((str "https://").isPrefixOf (fixEncodingIssues v))) = true
  · rw [if_pos hc]
    have hp := isPrefixOf_append (str "https://") (fixEncodingIssues v)
    simp [hp]
  · rw [if_neg hc]
    cases ha : (str "http://").isPrefixOf (fixEncodingIssues v) <;>
      cases hb : (str "https://").isPrefixOf (fixEncodingIssues v) <;>
      simp [ha, hb] at hc ⊢

/-- Unfolding of `detectCSVFormat` on a non-empty table. -/
theorem detectCSVFormat_cons (r : Row) (rest : List Row) :
    detectCSVFormat (r :: rest) =
      (if ([str "handle", str "title"].all
            (fun h => (r.map (fun p => toLowerStr p.1)).any (fun hd => containsSub h hd))) then
        str "products"
       else if ([str "handle", str "namespace", str "key", str "value"].all
            (fun h => (r.map (fun p => toLowerStr p.1)).contains h)) then
        str "metafields"
       else str "unknown") := rfl

/-- `createBatchesAux` yields no batches from no items. -/
theorem createBatchesAux_nil {α : Type} (n fuel : Nat) :
    createBatchesAux (α := α) n fuel [] = [] := by
  cases fuel <;> rfl

/-- With enough fuel, concatenating the batches restores the item list. -/
theorem createBatchesAux_flatten {α : Type} (n : Nat) (hn : 0 < n) :
    ∀ (fuel : Nat) (items : List α), items.length ≤ fuel →
      (createBatchesAux n fuel items).flatten = items := by
  intro fuel
  induction fuel with
  | zero =>
    intro items h
    have hnil : items = [] := List.eq_nil_of_length_eq_zero (Nat.le_zero.mp h)
    subst hnil
    rfl
  | succ f ih =>
    intro items h
    cases items with
    | nil => rfl
    | cons x xs =>
      have hrec : (List.drop n (x :: xs)).length ≤ f := by
        rw [List.length_drop]
        simp only [List.length_cons] at h ⊢
        omega
      calc (createBatchesAux n (f + 1) (x :: xs)).flatten
          = List.take n (x :: xs) ++ (createBatchesAux n f (List.drop n (x :: xs))).flatten := rfl
        _ = List.take n (x :: xs) ++ List.drop n (x :: xs) := by rw [ih _ hrec]
        _ = x :: xs := List.take_append_drop n (x :: xs)

/-- Every batch produced by `createBatchesAux` is non-empty and no longer
than the batch size. -/
theorem createBatchesAux_mem {α : Type} (n : Nat) (hn : 0 < n) :
    ∀ (fuel : Nat) (items : List α) (b : List α),
      b ∈ createBatchesAux n fuel items → b ≠ [] ∧ b.length ≤ n := by
  intro fuel
  induction fuel with
  | zero =>
    intro items b hb
    simp [createBatchesAux] at hb
  | succ f ih =>
    intro items b hb
    cases items with
    | nil => simp [createBatchesAux_nil] at hb
    | cons x xs =>
      have hstep : createBatchesAux n (f + 1) (x :: xs) =
          List.take n (x :: xs) :: createBatchesAux n f (List.drop n (x :: xs)) := rfl
      rw [hstep] at hb
      have hb2 : b = List.take n (x :: xs) ∨ b ∈ createBatchesAux n f (List.drop n (x :: xs)) :=
        List.mem_cons.mp hb
      rcases hb2 with hb2 | hb2
      · subst hb2
        constructor
        · obtain ⟨m, rfl⟩ : ∃ m, n = m + 1 := ⟨n - 1, by omega⟩
          simp [List.take_succ_cons]
        · exact List.length_take_le n (x :: xs)
      · exact ih _ _ hb2

/-- Every batch before the last has exactly the batch size. -/
theorem createBatchesAux_dropLast {α : Type} (n : Nat) (hn : 0 < n) :
    ∀ (fuel : Nat) (items : List α) (b : List α),
      items.length ≤ fuel → b ∈ (createBatchesAux n fuel items).dropLast →
      b.length = n := by
  intro fuel
  induction fuel with
  | zero =>
    intro items b h hb
    have hnil : items = [] := List.eq_nil_of_length_eq_zero (Nat.le_zero.mp h)
    subst hnil
    simp [createBatchesAux] at hb
  | succ f ih =>
    intro items b h hb
    cases items with
    | nil => simp [createBatchesAux_nil] at hb
    | cons x xs =>
      have hstep : createBatchesAux n (f + 1) (x :: xs) =
          List.take n (x :: xs) :: createBatchesAux n f (List.drop n (x :: xs)) := rfl
      rw [hstep] at hb
      cases hrest : createBatchesAux n f (List.drop n (x :: xs)) with
      | nil => rw [hrest] at hb; simp at hb
      | cons r rs =>
        rw [hrest] at hb
        rw [List.dropLast_cons₂] at hb
        rcases List.mem_cons.mp hb with hb | hb
        · subst hb
          have hdropne : List.drop n (x :: xs) ≠ [] := by
            intro hd
            rw [hd, createBatchesAux_nil] at hrest
            exact List.noConfusion hrest
          have hlen : n < (x :: xs).length := by
            by_contra hle
            exact hdropne (List.drop_eq_nil_of_le (by omega))
          rw [List.length_take]
          omega
        · have hrec : (List.drop n (x :: xs)).length ≤ f := by
            rw [List.length_drop]
            simp only [List.length_cons] at h ⊢
            omega
          exact ih _ b hrec (by rw [hrest]; exact hb)

/-- The error component of `validateMetafieldAux` is the concatenation of
the per-row error lists, indexed from the starting row index. -/
theorem validateMetafieldAux_fst (data : List Row) : ∀ (i : Nat),
    (validateMetafieldAux i data).1 =
      ((data.enumFrom i).map (fun p => metaRowErrors p.1 p.2)).flatten := by
  induction data with
  | nil => intro i; rfl
  | cons r rs ih =>
    intro i
    simp [validateMetafieldAux, ih (i + 1)]

/-- When no row errs, `validateMetafieldAux` validates every row. -/
theorem validateMetafieldAux_ok_len (data : List Row) : ∀ (i : Nat),
    (validateMetafieldAux i data).1 = [] →
    (validateMetafieldAux i data).2.length = data.length := by
  induction data with
  | nil => intro i _; rfl
  | cons r rs ih =>
    intro i h
    simp only [validateMetafieldAux] at h ⊢
    rcases List.append_eq_nil.mp h with ⟨he, hrest⟩
    simp [he, ih (i + 1) hrest]

/-- The error component of `validateProductAux` is the concatenation of the
per-row error lists, indexed from the starting row index. -/
theorem validateProductAux_fst (data : List Row) : ∀ (i : Nat),
    (validateProductAux i data).1 =
      ((data.enumFrom i).map (fun p => prodRowErrors p.1 p.2)).flatten := by
  induction data with
  | nil => intro i; rfl
  | cons r rs ih =>
    intro i
    simp [validateProductAux, ih (i + 1)]

/-- When no row errs, `validateProductAux` validates every row. -/
theorem validateProductAux_ok_len (data : List Row) : ∀ (i : Nat),
    (validateProductAux i data).1 = [] →
    (validateProductAux i data).2.length = data.length := by
  induction data with
  | nil => intro i _; rfl
  | cons r rs ih =>
    intro i h
    simp only [validateProductAux] at h ⊢
    rcases List.append_eq_nil.mp h with ⟨he, hrest⟩
    simp [he, ih (i + 1) hrest]

/-! The claim theorems. -/

/-- Claim C1, counterexample: in the dry-run metafields scenario of
end-to-end scenario A, the single success entry recorded by
`processMetafields` has no `fieldsToUpdate` key at all, refuting the claim
that the field-count key of the entry is `fieldsToUpdate` with value 1. -/
theorem c1_counterexample :
    ((processMetafields extModel c1World c1Product [c1FieldUpdate] (str "red-board")
        true).success.map (fun e => lookupEntry e "fieldsToUpdate")) = [none] := by
  decide

/-- Claim C1, as amended: for the dry-run FieldUpdates table whose single
data row is `red-board,custom,color,red,single_line_text_field`, validation
accepts the row, grouping yields exactly one entity key carrying one field
update, the dry-run execution issues no remote mutation call and records no
error, and the single success entry carries the field count under the key
`metafieldsToUpdate` with value 1. -/
theorem c1_dry_run_scenario :
    validateMetafieldCSVData [c1Row] = .ok [c1Record] ∧
    groupMetafieldsByHandle [c1Record] = [(str "red-board", [c1FieldUpdate])] ∧
    (processMetafields extModel c1World c1Product [c1FieldUpdate] (str "red-board")
      true).calls = [] ∧
    (processMetafields extModel c1World c1Product [c1FieldUpdate] (str "red-board")
      true).errors = [] ∧
    (processMetafields extModel c1World c1Product [c1FieldUpdate] (str "red-board")
      true).success =
      [[("handle", .s (str "red-board")), ("metafieldsToUpdate", .n 1),
        ("productTitle", .s (str "Red Board")), ("dryRun", .b true)]] ∧
    ((processMetafields extModel c1World c1Product [c1FieldUpdate] (str "red-board")
        true).success.map (fun e => lookupEntry e "metafieldsToUpdate")) = [some (.n 1)] := by
  decide

/-- Claim C2, counterexample: a table whose headers carry the four canonical
FieldUpdates names only in a different letter case (`Handle`, `Namespace`,
`Key`, `Value` — none of the exact lowercase names is present) is still
classified as the metafields (FieldUpdates) format, refuting the claimed
case-sensitive requirement. -/
theorem c2_counterexample :
    detectCSVFormat [c2Row] = str "metafields" ∧
    (c2Row.map (fun p => p.1)).contains (str "handle") = false ∧
    (c2Row.map (fun p => p.1)).contains (str "namespace") = false ∧
    (c2Row.map (fun p => p.1)).contains (str "key") = false ∧
    (c2Row.map (fun p => p.1)).contains (str "value") = false := by
  decide

/-- Claim C2, as amended: format detection lower-cases the headers first, so
a non-empty table is classified as FieldUpdates exactly when the lowercased
headers contain all four canonical names `handle`, `namespace`, `key`,
`value` and the EntityProperties check (some lowercased header containing
`handle` and some containing `title` as substrings) does not fire; letter
case of the headers is irrelevant. -/
theorem c2_detection_case_insensitive (r : Row) (rest : List Row) :
    detectCSVFormat (r :: rest) = str "metafields" ↔
      (([str "handle", str "namespace", str "key", str "value"].all
          (fun h => (r.map (fun p => toLowerStr p.1)).contains h)) = true ∧
       ([str "handle", str "title"].all
          (fun h => (r.map (fun p => toLowerStr p.1)).any
            (fun hd => containsSub h hd))) = false) := by
  rw [detectCSVFormat_cons]
  by_cases hp : ([str "handle", str "title"].all
      (fun h => (r.map (fun p => toLowerStr p.1)).any (fun hd => containsSub h hd))) = true
  · rw [if_pos hp]
    simp only [hp]
    constructor
    · intro h
      exact absurd h (by decide)
    · rintro ⟨hm, hcontra⟩
      cases hcontra
  · rw [if_neg hp]
    by_cases hm : ([str "handle", str "namespace", str "key", str "value"].all
        (fun h => (r.map (fun p => toLowerStr p.1)).contains h)) = true
    · rw [if_pos hm]
      have hpf : ([str "handle", str "title"].all
          (fun h => (r.map (fun p => toLowerStr p.1)).any
            (fun hd => containsSub h hd))) = false :=
        Bool.eq_false_iff.mpr hp
      exact ⟨fun _ => ⟨hm, hpf⟩, fun _ => rfl⟩
    · rw [if_neg hm]
      constructor
      · intro h
        exact absurd h (by decide)
      · rintro ⟨hmm, _⟩
        exact absurd hmm hm

/-- Claim C3: evaluating the per-handle catch handler of `action` on a
failure whose message carries the 429 rate-limit signal shows the handler
classifies the message as a rate-limit condition and waits the configured
`RETRY_DELAY`, yet consumes only a single invocation of the operation and
records the permanent per-key error immediately — it never re-attempts the
operation, although the configured maximum attempt count is 3 and the
handler logs that it will retry. -/
theorem c3_rate_limit_recorded_without_retry :
    isRateLimitError c3Msg = true ∧
    RATE_LIMIT_CONFIG.MAX_RETRIES = 3 ∧
    (processHandleAttempt c3Outcomes (str "red-board")).attemptsUsed = 1 ∧
    (processHandleAttempt c3Outcomes (str "red-board")).delaysMs =
      [RATE_LIMIT_CONFIG.RETRY_DELAY] ∧
    (processHandleAttempt c3Outcomes (str "red-board")).errors =
      [{ handle := str "red-board", error := str "Processing error: " ++ c3Msg }] := by
  decide

/-- Claim C4: for both table variants, validation is all-or-nothing: a
record set is returned only when every row is error-free (and then every
row contributes a record), and any failure carries the complete
row-indexed error list of the whole table, so no partial valid set ever
reaches grouping. -/
theorem c4_validation_all_or_nothing (mdata pdata : List Row) :
    (∀ recs, validateMetafieldCSVData mdata = .ok recs →
       (∀ p ∈ mdata.enum, metaRowErrors p.1 p.2 = []) ∧ recs.length = mdata.length) ∧
    (∀ errs, validateMetafieldCSVData mdata = .error errs →
       errs = (mdata.enum.map (fun p => metaRowErrors p.1 p.2)).flatten ∧ errs ≠ []) ∧
    (∀ recs, validateProductCSVData pdata = .ok recs →
       (∀ p ∈ pdata.enum, prodRowErrors p.1 p.2 = []) ∧ recs.length = pdata.length) ∧
    (∀ errs, validateProductCSVData pdata = .error errs →
       errs = (pdata.enum.map (fun p => prodRowErrors p.1 p.2)).flatten ∧ errs ≠ []) := by
  have henum : ∀ (l : List Row), l.enum = l.enumFrom 0 := fun l => rfl
  refine ⟨?_, ?_, ?_, ?_⟩
  · intro recs hok
    unfold validateMetafieldCSVData at hok
    by_cases he : (validateMetafieldAux 0 mdata).1.isEmpty = true
    · rw [if_pos he] at hok
      have hnil : (validateMetafieldAux 0 mdata).1 = [] := by
        simpa [List.isEmpty_iff] using he
      constructor
      · intro p hp
        have hfst := validateMetafieldAux_fst mdata 0
        rw [hnil] at hfst
        have hall := (List.flatten_eq_nil_iff).mp hfst.symm
        exact hall _ (List.mem_map_of_mem _ (by rw [← henum]; exact hp))
      · have hlen := validateMetafieldAux_ok_len mdata 0 hnil
        rw [← Except.ok.inj hok]
        exact hlen
    · rw [if_neg he] at hok
      exact Except.noConfusion hok
  · intro errs herr
    unfold validateMetafieldCSVData at herr
    by_cases he : (validateMetafieldAux 0 mdata).1.isEmpty = true
    · rw [if_pos he] at herr
      exact Except.noConfusion herr
    · rw [if_neg he] at herr
      have heq : errs = (validateMetafieldAux 0 mdata).1 := (Except.error.inj herr).symm
      constructor
      · rw [heq, validateMetafieldAux_fst mdata 0, henum]
      · rw [heq]
        intro hnil
        exact he (by simp [hnil])
  · intro recs hok
    unfold validateProductCSVData at hok
    by_cases he : (validateProductAux 0 pdata).1.isEmpty = true
    · rw [if_pos he] at hok
      have hnil : (validateProductAux 0 pdata).1 = [] := by
        simpa [List.isEmpty_iff] using he
      constructor
      · intro p hp
        have hfst := validateProductAux_fst pdata 0
        rw [hnil] at hfst
        have hall := (List.flatten_eq_nil_iff).mp hfst.symm
        exact hall _ (List.mem_map_of_mem _ (by rw [← henum]; exact hp))
      · have hlen := validateProductAux_ok_len pdata 0 hnil
        rw [← Except.ok.inj hok]
        exact hlen
    · rw [if_neg he] at hok
      exact Except.noConfusion hok
  · intro errs herr
    unfold validateProductCSVData at herr
    by_cases he : (validateProductAux 0 pdata).1.isEmpty = true
    · rw [if_pos he] at herr
      exact Except.noConfusion herr
    · rw [if_neg he] at herr
      have heq : errs = (validateProductAux 0 pdata).1 := (Except.error.inj herr).symm
      constructor
      · rw [heq, validateProductAux_fst pdata 0, henum]
      · rw [heq]
        intro hnil
        exact he (by simp [hnil])

/-- Claim C4, witness: a fully valid metafield row yields an empty per-row
error list through the theorem's accepting branch, and an invalid product
row makes the whole-table error list non-empty through its rejecting
branch. -/
theorem c4_validation_all_or_nothing_witness :
    metaRowErrors 0 c4MetaRow = [] ∧
    (([c4ProdRow].enum.map (fun p => prodRowErrors p.1 p.2)).flatten ≠ ([] : List Str)) := by
  have h := c4_validation_all_or_nothing [c4MetaRow] [c4ProdRow]
  constructor
  · exact (h.1 [c4MetaRec] (by decide)).1 (0, c4MetaRow) (by decide)
  · have h4 := h.2.2.2
      [str "Row 1: Invalid handle format. Handle contains unsupported characters."]
      (by decide)
    rw [← h4.1]
    exact h4.2

/-- Claim C5: on a validated record whose body (`B`) and title (`T`)
differ, the synchronous executor's property-update path sets the
description field of the update input from the record's body, while the
background executor's path sets it from the record's title, so the two
assembled update inputs are not equal — contradicting the
`matching main processor` comments in the background source. -/
theorem c5_description_source_divergence :
    (processProductPropertiesInput extModel c5Product c5Data).descriptionHtml =
      some (str "B") ∧
    (backgroundProductPropertiesInput extModel c5Product c5Data).descriptionHtml =
      some (str "T") ∧
    processProductPropertiesInput extModel c5Product c5Data ≠
      backgroundProductPropertiesInput extModel c5Product c5Data := by
  decide

/-- Claim C6: the submission entry point enables the preview option exactly
for dry-run requests, and with preview enabled a cleaned text of a header
line plus more than 25 data lines is truncated to the header plus the
first 25 data lines; consequently every downstream computation (validation,
grouping, result counting) sees only those lines — two inputs agreeing on
their first 25 data lines are indistinguishable downstream. -/
theorem c6_preview_truncation {α : Type} (dryRun : Bool) (header : String)
    (rows rows2 : List String) (g : List String → α) (hd : dryRun = true)
    (h1 : rows.length > 25) (h2 : rows2.length > 25)
    (h3 : rows2.take 25 = rows.take 25) :
    previewLimit (actionPreviewFlag dryRun) (header :: rows) = header :: rows.take 25 ∧
    g (previewLimit (actionPreviewFlag dryRun) (header :: rows2)) =
      g (previewLimit (actionPreviewFlag dryRun) (header :: rows)) := by
  subst hd
  have key : ∀ (rs : List String), rs.length > 25 →
      previewLimit (actionPreviewFlag true) (header :: rs) = header :: rs.take 25 := by
    intro rs hrs
    unfold previewLimit actionPreviewFlag maxPreviewRows
    rw [if_pos]
    · rfl
    · simp only [Bool.true_and, decide_eq_true_eq, List.length_cons]
      omega
  exact ⟨key rows h1, by rw [key rows2 h2, key rows h1, h3]⟩

/-- Claim C6, witness: on a concrete table of 26 data lines the preview
truncation keeps the header plus the first 25, and appending a different
tail beyond line 25 leaves the downstream line count unchanged. -/
theorem c6_preview_truncation_witness :
    previewLimit (actionPreviewFlag true) ("header" :: c6Rows) =
      "header" :: c6Rows.take 25 ∧
    List.length (previewLimit (actionPreviewFlag true) ("header" :: c6Rows2)) =
      List.length (previewLimit (actionPreviewFlag true) ("header" :: c6Rows)) :=
  c6_preview_truncation true "header" c6Rows c6Rows2 List.length rfl
    (by decide) (by decide) (by decide)

/-- Claim C7: for every value string, integer-type validation accepts
exactly the strings made of an optional leading minus followed by one or
more digits; in particular `12.3` is rejected under the integer type and
accepted under the decimal type. -/
theorem c7_integer_validation (ext : ExtParsers) (v : Str) :
    (validateMetafieldValue ext v (str "number_integer") = true ↔
      ∃ ds : Str, ds ≠ [] ∧ (∀ c ∈ ds, c.isDigit) ∧ (v = ds ∨ v = '-' :: ds)) ∧
    validateMetafieldValue extModel (str "12.3") (str "number_integer") = false ∧
    validateMetafieldValue extModel (str "12.3") (str "number_decimal") = true := by
  refine ⟨?_, by decide, by decide⟩
  have hval : validateMetafieldValue ext v (str "number_integer") = intRegexTest v := rfl
  rw [hval]
  constructor
  · intro h
    cases v with
    | nil => simp [intRegexTest] at h
    | cons c rest =>
      by_cases hc : c = '-'
      · subst hc
        rw [intRegexTest_cons_minus] at h
        simp only [Bool.and_eq_true, Bool.not_eq_true', isEmpty_false_iff,
          List.all_eq_true] at h
        exact ⟨rest, h.1, h.2, Or.inr rfl⟩
      · rw [intRegexTest_cons_ne c rest hc] at h
        simp only [Bool.and_eq_true, Bool.not_eq_true', isEmpty_false_iff,
          List.all_eq_true] at h
        exact ⟨c :: rest, by simp, h.2, Or.inl rfl⟩
  · rintro ⟨ds, hne, hdig, hv | hv⟩ <;> rw [hv]
    · cases ds with
      | nil => exact absurd rfl hne
      | cons c rest =>
        have hc : c ≠ '-' := by
          intro hcEq
          have hd := hdig c (by simp)
          rw [hcEq] at hd
          exact absurd hd (by decide)
        rw [intRegexTest_cons_ne c rest hc]
        simp only [Bool.and_eq_true, Bool.not_eq_true', isEmpty_false_iff,
          List.all_eq_true]
        refine ⟨by simp, ?_⟩
        intro x hx
        exact hdig x hx
    · rw [intRegexTest_cons_minus]
      simp only [Bool.and_eq_true, Bool.not_eq_true', isEmpty_false_iff,
        List.all_eq_true]
      exact ⟨hne, hdig⟩

/-- Claim C8: for every item list and positive batch size, `createBatches`
slices the list into consecutive runs in input order: the concatenation of
the batches is the input (every item in exactly one batch), every batch is
non-empty and no longer than the batch size, every batch before the last
has exactly the batch size, and the batch list is empty exactly when the
input is. -/
theorem c8_createBatches_partition {α : Type} (items : List α) (n : Nat) (hn : 0 < n) :
    (createBatches items n).flatten = items ∧
    (∀ b ∈ createBatches items n, b ≠ [] ∧ b.length ≤ n) ∧
    (∀ b ∈ (createBatches items n).dropLast, b.length = n) ∧
    (createBatches items n = [] ↔ items = []) := by
  have hne : ¬n = 0 := by omega
  refine ⟨?_, ?_, ?_, ?_⟩
  · rw [createBatches, if_neg hne]
    exact createBatchesAux_flatten n hn _ items le_rfl
  · intro b hb
    rw [createBatches, if_neg hne] at hb
    exact createBatchesAux_mem n hn _ items b hb
  · intro b hb
    rw [createBatches, if_neg hne] at hb
    exact createBatchesAux_dropLast n hn _ items b le_rfl hb
  · rw [createBatches, if_neg hne]
    constructor
    · intro h
      cases items with
      | nil => rfl
      | cons x xs => exact absurd h (by simp [createBatchesAux])
    · intro h
      subst h
      rfl

/-- Claim C8, witness: the theorem applied to the five-element list with
batch size two. -/
theorem c8_createBatches_partition_witness :
    (createBatches [0, 1, 2, 3, 4] 2).flatten = [0, 1, 2, 3, 4] ∧
    (createBatches [0, 1, 2, 3, 4] 2 = [] ↔ ([0, 1, 2, 3, 4] : List Nat) = []) := by
  have h := c8_createBatches_partition [0, 1, 2, 3, 4] 2 (by decide)
  exact ⟨h.1, h.2.2.2⟩

/-- Claim C9: the adaptive batch size is the claimed step function of the
total key count, with the thresholds taken from `RATE_LIMIT_CONFIG`: 3
below the small-dataset threshold, 2 from the small up to the medium
threshold, 2 from the medium up to the large threshold, and 1 at and above
the large threshold. -/
theorem c9_optimal_batch_size_step (n : Nat) :
    (n < RATE_LIMIT_CONFIG.SMALL_DATASET → getOptimalBatchSize n = 3) ∧
    (RATE_LIMIT_CONFIG.SMALL_DATASET ≤ n → n < RATE_LIMIT_CONFIG.MEDIUM_DATASET →
      getOptimalBatchSize n = 2) ∧
    (RATE_LIMIT_CONFIG.MEDIUM_DATASET ≤ n → n < RATE_LIMIT_CONFIG.LARGE_DATASET →
      getOptimalBatchSize n = 2) ∧
    (RATE_LIMIT_CONFIG.LARGE_DATASET ≤ n → getOptimalBatchSize n = 1) := by
  simp only [getOptimalBatchSize,
    show RATE_LIMIT_CONFIG.SMALL_DATASET = 10 from rfl,
    show RATE_LIMIT_CONFIG.MEDIUM_DATASET = 50 from rfl,
    show RATE_LIMIT_CONFIG.LARGE_DATASET = 100 from rfl]
  refine ⟨?_, ?_, ?_, ?_⟩ <;> intros <;> split_ifs <;> omega

/-- Claim C9, witness: the step function evaluated once in each of the four
regions. -/
theorem c9_optimal_batch_size_step_witness :
    getOptimalBatchSize 5 = 3 ∧ getOptimalBatchSize 20 = 2 ∧
    getOptimalBatchSize 70 = 2 ∧ getOptimalBatchSize 150 = 1 :=
  ⟨(c9_optimal_batch_size_step 5).1 (by decide),
   (c9_optimal_batch_size_step 20).2.1 (by decide) (by decide),
   (c9_optimal_batch_size_step 70).2.2.1 (by decide) (by decide),
   (c9_optimal_batch_size_step 150).2.2.2 (by decide)⟩

/-- Claim C10, counterexample: the value `http://x.com/?Âg` validates under
the url type, yet formatting it twice differs from formatting it once: the
first encoding repair deletes the `Â`, leaving `?g`, which the second
repair rewrites to `μg` — so url-type formatting is not idempotent on every
validating value (the same repair chain breaks the json type). -/
theorem c10_counterexample :
    validateMetafieldValue extModel c10Url (str "url") = true ∧
    formatMetafieldValue extModel (formatMetafieldValue extModel c10Url (str "url"))
        (str "url") ≠
      formatMetafieldValue extModel c10Url (str "url") := by
  decide

/-- Claim C10, as amended: formatting is unconditionally idempotent for the
boolean type; for the url type it is idempotent exactly on values whose
formatted output is a fixed point of the encoding repair; the json-type
output is the re-serialization (`jsonRoundtrip`) of the encoding-repaired
value, and json formatting is idempotent whenever the repair is stable on
that output and the platform round-trip is idempotent on it. -/
theorem c10_format_idempotence (ext : ExtParsers) (v : Str) :
    (formatMetafieldValue ext (formatMetafieldValue ext v (str "boolean")) (str "boolean") =
      formatMetafieldValue ext v (str "boolean")) ∧
    (fixEncodingIssues (formatMetafieldValue ext v (str "url")) =
        formatMetafieldValue ext v (str "url") →
      formatMetafieldValue ext (formatMetafieldValue ext v (str "url")) (str "url") =
        formatMetafieldValue ext v (str "url")) ∧
    (formatMetafieldValue ext v (str "json") = ext.jsonRoundtrip (fixEncodingIssues v)) ∧
    (fixEncodingIssues (ext.jsonRoundtrip (fixEncodingIssues v)) =
        ext.jsonRoundtrip (fixEncodingIssues v) →
     ext.jsonRoundtrip (ext.jsonRoundtrip (fixEncodingIssues v)) =
        ext.jsonRoundtrip (fixEncodingIssues v) →
      formatMetafieldValue ext (formatMetafieldValue ext v (str "json")) (str "json") =
        formatMetafieldValue ext v (str "json")) := by
  refine ⟨?_, ?_, formatMetafieldValue_json ext v, ?_⟩
  · rw [formatMetafieldValue_boolean ext v]
    by_cases hp : ([str "true", str "1"].contains (toLowerStr (fixEncodingIssues v))) = true
    · rw [if_pos hp, formatMetafieldValue_boolean]
      decide
    · rw [if_neg hp, formatMetafieldValue_boolean]
      decide
  · intro h
    have hsch := formatMetafieldValue_url_scheme ext v
    rw [formatMetafieldValue_url ext (formatMetafieldValue ext v (str "url")), h]
    rw [if_neg]
    cases ha : (str "http://").isPrefixOf (formatMetafieldValue ext v (str "url")) <;>
      cases hb : (str "https://").isPrefixOf (formatMetafieldValue ext v (str "url")) <;>
      simp [ha, hb] at hsch ⊢
  · intro h1 h2
    rw [formatMetafieldValue_json ext v, formatMetafieldValue_json, h1, h2]

/-- Claim C10, witness: the amended idempotence instantiated at the value
`[]`, discharging the stability hypotheses concretely. -/
theorem c10_format_idempotence_witness :
    (formatMetafieldValue extModel (formatMetafieldValue extModel (str "[]")
        (str "boolean")) (str "boolean") =
      formatMetafieldValue extModel (str "[]") (str "boolean")) ∧
    (formatMetafieldValue extModel (formatMetafieldValue extModel (str "[]")
        (str "url")) (str "url") =
      formatMetafieldValue extModel (str "[]") (str "url")) ∧
    (formatMetafieldValue extModel (formatMetafieldValue extModel (str "[]")
        (str "json")) (str "json") =
      formatMetafieldValue extModel (str "[]") (str "json")) := by
  have h := c10_format_idempotence extModel (str "[]")
  exact ⟨h.1, h.2.1 (by decide), h.2.2.2 (by decide) (by decide)⟩

end CSVUpdater
